import Mathlib

/-
Verification of the PL/v8 handler routines (plv8.cc): a shallow embedding of
the procedure cache, execution-environment pool, global context registry,
value converter, trigger handler and SPI call bracketing, with theorems about
the behaviour of each.

Engine (V8) values are modelled by an inductive `JSValue`; engine handles by
`Option Nat` (none = empty handle); fallible C paths that raise errors by
`Except String`.
-/

namespace Plv8

/-- Engine values as seen by the conversion layer: the V8 value kinds that
the handler code branches on (`IsUndefined`, `IsNull`, `IsArray`,
`IsObject`, plus the scalar kinds). Arrays and objects carry their
elements / named properties. -/
inductive JSValue where
  | undefined : JSValue
  | null : JSValue
  | bool : Bool → JSValue
  | num : Int → JSValue
  | str : String → JSValue
  | array : List JSValue → JSValue
  | object : List (String × JSValue) → JSValue

/-- SQL scalar values produced by per-column conversion. -/
inductive SQLValue where
  | b : Bool → SQLValue
  | i : Int → SQLValue
  | s : String → SQLValue
deriving DecidableEq

/-- Per-column type descriptor (the `plv8_type` oid, abstracted to the
kinds the spec requires). -/
inductive ColType where
  | bool : ColType
  | int : ColType
  | text : ColType
deriving DecidableEq

/-- One column of a tuple descriptor: attribute name and type. -/
abbrev Column := String × ColType

/-- A native row: one `Option SQLValue` per column, `none` = SQL NULL
(the `values`/`nulls` arrays of `Converter::ToDatum`). -/
abbrev Row := List (Option SQLValue)

/-- The `attr.IsEmpty() || attr->IsUndefined() || attr->IsNull()` test of
`Converter::ToDatum` (a property read never yields an empty handle here,
so undefined-or-null). -/
def isNullish : JSValue → Bool
  | .undefined => true
  | .null => true
  | _ => false

/-- The V8 `IsArray` test used by `CallSRFunction`. -/
def isArray : JSValue → Bool
  | .array _ => true
  | _ => false

/-- The V8 `IsUndefined` test used by `CallSRFunction`. -/
def isUndefined : JSValue → Bool
  | .undefined => true
  | _ => false

/-- V8 `obj->Get(name)`: the named property if present, else `undefined`. -/
def objGet (fields : List (String × JSValue)) (name : String) : JSValue :=
  match fields.find? (fun p => p.1 == name) with
  | some p => p.2
  | none => .undefined

/-- A V8 array viewed as an object: its properties are its indices
(`IsObject` is true for arrays, so `Converter::ToDatum` accepts them and
reads named properties, which for ordinary column names are absent). -/
def arrayFields (xs : List JSValue) : List (String × JSValue) :=
  xs.enum.map (fun p => (toString p.1, p.2))

/-- Modelled from the spec: the scalar direction `toDatum(engineValue,
typeDescriptor) -> (datum, isnull)` is implemented in plv8_type.cc, which is
not under src/. Per the spec it must support at minimum boolean, integer and
text, and any per-column conversion failure propagates as a script-level
error. -/
def scalarToDatum : JSValue → ColType → Except String SQLValue
  | .bool b, .bool => .ok (.b b)
  | .num n, .int => .ok (.i n)
  | .str s, .text => .ok (.s s)
  | _, _ => .error "conversion failure"

/-- Error-propagating map, the shape of the per-column / per-element C
loops: convert each item in order, aborting at the first failure. -/
def mapE (f : α → Except ε β) : List α → Except ε (List β)
  | [] => .ok []
  | x :: xs =>
    match f x with
    | .error e => .error e
    | .ok y =>
      match mapE f xs with
      | .error e => .error e
      | .ok ys => .ok (y :: ys)

/-- The column loop of `Converter::ToDatum` on an object: for each column,
read the property named after the column; missing/undefined/null gives SQL
NULL, anything else goes through the per-column descriptor. -/
def rowOfObj (cols : List Column) (fields : List (String × JSValue)) : Except String Row :=
  mapE (fun col =>
    let attr := objGet fields col.1
    if isNullish attr then Except.ok none
    else (scalarToDatum attr col.2).map some) cols

/-- `Converter::ToDatum(value, ...)` (plv8.cc): when not scalar-shaped the
value must be a V8 object (arrays included); otherwise the scalar value
itself is used for every column of the (one-column) descriptor. -/
def converterToDatum (isScalar : Bool) (cols : List Column) (value : JSValue) : Except String Row :=
  if isScalar then
    mapE (fun col =>
      if isNullish value then Except.ok none
      else (scalarToDatum value col.2).map some) cols
  else
    match value with
    | .object fields => rowOfObj cols fields
    | .array xs => rowOfObj cols (arrayFields xs)
    | _ => .error "argument must be an object"

/-- The result-marshalling tail of `CallSRFunction` (plv8.cc lines 410-431):
rows appended to the tuplestore from the engine result. `undefined` appends
nothing; an array appends one converted row per element in index order;
any other value is converted as a single row. -/
def srfEmit (isScalar : Bool) (cols : List Column) (result : JSValue) : Except String (List Row) :=
  match result with
  | .undefined => .ok []
  | .array xs => mapE (converterToDatum isScalar cols) xs
  | v => (converterToDatum isScalar cols v).map (fun r => [r])

/-- Trigger operation kind (`TRIGGER_FIRED_BY_*`). -/
inductive TgOp where
  | ins : TgOp
  | del : TgOp
  | upd : TgOp
  | trunc : TgOp
deriving DecidableEq

/-- The parts of `TriggerData` that `CallTrigger` uses to pick its result
tuple: operation, row-vs-statement level, `tg_trigtuple` and `tg_newtuple`. -/
structure TriggerData where
  op : TgOp
  forRow : Bool
  trigtuple : Row
  newtuple : Row
deriving DecidableEq

/-- The datum a trigger handler returns to the executor: `zero` is
`(Datum) 0` (operation suppressed), `tuple r` is a pointer to the tuple
with contents `r`. -/
inductive TriggerResult where
  | zero : TriggerResult
  | tuple : Row → TriggerResult
deriving DecidableEq

/-- The result computation of `CallTrigger` (plv8.cc lines 434-559),
argument marshalling elided (the engine call is a black box whose returned
value is the parameter `fnResult`): for a row-level call `result` is first
set to `tg_trigtuple` (INSERT/DELETE) or `tg_newtuple` (UPDATE); after the
call, only for UPDATE and only when the returned value is neither undefined
nor null, `result` is replaced by the converted returned row. -/
def callTrigger (t : TriggerData) (cols : List Column) (fnResult : JSValue) : Except String TriggerResult :=
  let result : TriggerResult :=
    if t.forRow then
      match t.op with
      | .ins => .tuple t.trigtuple
      | .del => .tuple t.trigtuple
      | .upd => .tuple t.newtuple
      | .trunc => .zero
    else .zero
  if t.op = TgOp.upd then
    match fnResult with
    | .undefined => .ok result
    | .null => .ok result
    | v => (converterToDatum false cols v).map TriggerResult.tuple
  else .ok result

/-- One `plv8_exec_env`: the two V8 persistent handles, `recv` and
`context` (`none` = empty handle). The `next` link is modelled by list
position. -/
structure ExecEnv where
  recv : Option Nat
  context : Option Nat
deriving DecidableEq

/-- Transaction boundary events delivered to the `RegisterXactCallback`
hook. -/
inductive XactEvent where
  | commit : XactEvent
  | abort : XactEvent
  | prepare : XactEvent
deriving DecidableEq

/-- `plv8_xact_cb` (plv8.cc lines 169-188): walk the list from
`exec_env_head`, disposing and clearing each non-empty `recv` handle, then
reset the head to NULL. Returns (new head, the walked environments after
mutation). The event argument is ignored by the code. -/
def plv8XactCb (ev : XactEvent) (head : List ExecEnv) : List ExecEnv × List ExecEnv :=
  (([] : List ExecEnv),
   head.map (fun e => if e.recv.isSome then { e with recv := none } else e))

/-- SPI session events performed by `DoCall`. -/
inductive SpiEv where
  | connect : SpiEv
  | call : SpiEv
  | finish : SpiEv
deriving DecidableEq

/-- `DoCall` (plv8.cc lines 273-291): SPI_connect (throwing on failure
before any call), then the engine call, then SPI_finish, and only then are
the two failure modes (empty result = script error, negative finish status
= SPI error) raised. `callResult` is the engine call's outcome (`none` =
exception, i.e. empty handle); the second component is the ordered trace
of session events. -/
def doCall (connectOk : Bool) (callResult : Option Nat) (finishStatus : Int) :
    Except String Nat × List SpiEv :=
  if connectOk then
    match callResult with
    | none => (.error "javascript exception", [SpiEv.connect, SpiEv.call, SpiEv.finish])
    | some v =>
      if finishStatus < 0 then
        (.error "SPI_finish failed", [SpiEv.connect, SpiEv.call, SpiEv.finish])
      else
        (.ok v, [SpiEv.connect, SpiEv.call, SpiEv.finish])
  else
    (.error "could not connect to SPI manager", [])

/-- One `plv8_context` registry entry: engine context handle and owning
user id. -/
structure Plv8Ctx where
  context : Nat
  user_id : Nat
deriving DecidableEq

/-- The state behind `GetGlobalContext`: the process-wide `ContextVector`
plus a freshness counter standing for `Context::New` (each call yields a
context distinct from every live one). -/
structure CtxState where
  vector : List Plv8Ctx
  nextCtx : Nat
deriving DecidableEq

/-- The linear scan of `ContextVector` for the caller's user id. -/
def findCtx (s : CtxState) (u : Nat) : Option Plv8Ctx :=
  s.vector.find? (fun c => c.user_id == u)

/-- `GetGlobalContext` (plv8.cc lines 980-1041). On a hit the stored
context is returned and the state is untouched. On a miss a fresh context
is created and pushed onto `ContextVector` BEFORE the start-up procedure
runs (the code comments that recursion requires this); then, if
`plv8.start_proc` is set, that function is resolved and called, and its
failure propagates as an error -- with no removal of the entry that was
already registered. The start-up procedure's outcome is abstracted as
`startProc`: `none` = GUC unset, `some b` = configured and succeeding iff
`b`. -/
def getGlobalContext (startProc : Option Bool) (s : CtxState) (u : Nat) :
    Except Unit Nat × CtxState :=
  match findCtx s u with
  | some c => (.ok c.context, s)
  | none =>
    let ctx := s.nextCtx
    let s1 : CtxState := ⟨s.vector ++ [⟨ctx, u⟩], ctx + 1⟩
    match startProc with
    | some false => (.error (), s1)
    | _ => (.ok ctx, s1)

/-- Modelled from the spec: the engine's per-context global bindings (the
V8 engine itself is an external collaborator; the spec requires that a
global binding set in one context is not visible from another). Keyed by
(context handle, binding name). -/
abbrev GlobalStore := List ((Nat × String) × JSValue)

/-- Modelled from the spec: write a global binding inside one context. -/
def setBinding (st : GlobalStore) (c : Nat) (nm : String) (v : JSValue) : GlobalStore :=
  ((c, nm), v) :: st

/-- Modelled from the spec: read a global binding from one context. -/
def getBinding : GlobalStore → Nat → String → Option JSValue
  | [], _, _ => none
  | (k, v) :: rest, c, nm => if k.1 = c ∧ k.2 = nm then some v else getBinding rest c nm

/-- Well-formedness of the registry: every stored context handle is older
than the freshness counter, and no two entries share a context handle. -/
def WFCtx (s : CtxState) : Prop :=
  (∀ c ∈ s.vector, c.context < s.nextCtx) ∧
  s.vector.Pairwise (fun a b => a.context ≠ b.context)

/-- The catalog row for a function as read fresh by `plv8_get_proc`:
fingerprint (xmin, tid), name, source, set-returning flag, return type,
argument types and names. -/
structure CatalogRow where
  xmin : Nat
  tid : Nat × Nat
  proname : String
  prosrc : String
  retset : Bool
  rettype : Nat
  argtypes : List Nat
  argnames : List (Option String)
deriving DecidableEq

/-- One `plv8_proc_cache` entry. The compiled-function handle is the
wrapped source text produced by `CompileFunction` (`none` = empty
handle). -/
structure ProcCacheEntry where
  function : Option String
  proname : String
  prosrc : Option String
  fn_xmin : Nat
  fn_tid : Nat × Nat
  user_id : Nat
  nargs : Nat
  retset : Bool
  rettype : Nat
  argtypes : List Nat
deriving DecidableEq

/-- The `uptodate` test of `plv8_get_proc` (plv8.cc lines 640-643):
compiled handle present, stored xmin and tid equal the current catalog
row's, and stored user id equals the current session user. -/
def uptodate (c : ProcCacheEntry) (cat : CatalogRow) (u : Nat) : Bool :=
  c.function.isSome && decide (c.fn_xmin = cat.xmin) &&
    decide (c.fn_tid = cat.tid) && decide (c.user_id = u)

/-- The metadata refresh of `plv8_get_proc` when the compiled handle is
empty: everything re-read from the fresh catalog row and the current
session user, compiled handle left empty. -/
def refreshEntry (cat : CatalogRow) (u : Nat) : ProcCacheEntry :=
  { function := none
    proname := cat.proname
    prosrc := some cat.prosrc
    fn_xmin := cat.xmin
    fn_tid := cat.tid
    user_id := u
    nargs := cat.argtypes.length
    retset := cat.retset
    rettype := cat.rettype
    argtypes := cat.argtypes }

/-- `plv8_get_proc` (plv8.cc lines 610-738) restricted to the cache entry:
on a hit that is up to date the entry is returned untouched; on a stale hit
the compiled handle is disposed and cleared and all metadata is refreshed
from the fresh catalog read; on a miss a fresh entry is built the same
way. -/
def plv8GetProcEntry (prev : Option ProcCacheEntry) (cat : CatalogRow) (u : Nat) : ProcCacheEntry :=
  match prev with
  | some c => if uptodate c cat u then c else refreshEntry cat u
  | none => refreshEntry cat u

/-- The argument list built by `CompileFunction` for non-trigger
functions: declared names, positional `$N` for unnamed arguments, comma
separated. -/
def buildArgList (args : List (Option String)) : String :=
  String.intercalate "," (args.enum.map (fun p =>
    match p.2 with
    | some s1 => s1
    | none => "$" ++ toString (p.1 + 1)))

/-- `CompileFunction` (plv8.cc lines 803-867): wraps the raw source as an
anonymous function expression; trigger functions must have zero declared
arguments and get the fixed ten-slot parameter list. The compiled function
is represented by the wrapped source text. (`retset` is accepted and
unused, as in the source.) -/
def compileFunction (proname : Option String) (args : List (Option String))
    (prosrc : String) (is_trigger : Bool) (retset : Bool) : Except String String :=
  if is_trigger then
    if args.length ≠ 0 then .error "trigger function cannot have arguments"
    else .ok ("(function (NEW, OLD, TG_NAME, TG_WHEN, TG_LEVEL, TG_OP, TG_RELID, TG_TABLE_NAME, TG_TABLE_SCHEMA, TG_ARGV)\x7b\n" ++ prosrc ++ "\n\x7d)")
  else
    .ok ("(function (" ++ buildArgList args ++ ")\x7b\n" ++ prosrc ++ "\n\x7d)")

/-- `Compile` after `plv8_get_proc` (plv8.cc lines 772-801): if the cache
entry's compiled handle is empty, compile the (freshly read) source and
store the handle. -/
def getOrCompile (prev : Option ProcCacheEntry) (cat : CatalogRow) (u : Nat)
    (isTrigger : Bool) : Except String ProcCacheEntry :=
  let e := plv8GetProcEntry prev cat u
  match e.function with
  | some _ => .ok e
  | none =>
    match compileFunction (some e.proname) cat.argnames (e.prosrc.getD "") isTrigger e.retset with
    | .error err => .error err
    | .ok f => .ok { e with function := some f }

/-- The two `plv8` internal fields that `CallSRFunction` installs for
`return_next`: the active converter and the active tuplestore (`none` =
empty handle). -/
structure Plv8Obj where
  conv : Option Nat
  tupstore : Option Nat
deriving DecidableEq

/-- The save/install/restore discipline of `CallSRFunction` (plv8.cc lines
379-408) around the engine call: stash the previously registered converter
and tuplestore when a converter is registered, install this call's own pair,
run the call (`body`, which may itself mutate the fields), then write the
stashed pair back unconditionally. -/
def srInstallRestore (s : Plv8Obj) (own : Nat × Nat) (body : Plv8Obj → Plv8Obj) : Plv8Obj :=
  let prev : Option Nat × Option Nat :=
    if s.conv.isSome then (s.conv, s.tupstore) else (none, none)
  let after := body ⟨some own.1, some own.2⟩
  let _ := after
  ⟨prev.1, prev.2⟩

/- ------------------------------------------------------------------ -/
/- Helper lemmas (shared by several claim theorems).                   -/
/- ------------------------------------------------------------------ -/

theorem mapE_ok_length {f : α → Except ε β} :
    ∀ {xs : List α} {ys : List β}, mapE f xs = Except.ok ys → ys.length = xs.length := by
  intro xs
  induction xs with
  | nil =>
    intro ys h
    simp only [mapE] at h
    cases h
    rfl
  | cons x xs ih =>
    intro ys h
    simp only [mapE] at h
    cases hfx : f x with
    | error e => rw [hfx] at h; cases h
    | ok y =>
      rw [hfx] at h
      cases hrest : mapE f xs with
      | error e => rw [hrest] at h; cases h
      | ok ys0 =>
        rw [hrest] at h
        cases h
        simp [ih hrest]

theorem mapE_ok_get {f : α → Except ε β} :
    ∀ {xs : List α} {ys : List β}, mapE f xs = Except.ok ys →
      ∀ i (h1 : i < xs.length) (h2 : i < ys.length),
        f (xs.get ⟨i, h1⟩) = Except.ok (ys.get ⟨i, h2⟩) := by
  intro xs
  induction xs with
  | nil =>
    intro ys h i h1 h2
    exact absurd h1 (Nat.not_lt_zero i)
  | cons x xs ih =>
    intro ys h i h1 h2
    simp only [mapE] at h
    cases hfx : f x with
    | error e => rw [hfx] at h; cases h
    | ok y =>
      rw [hfx] at h
      cases hrest : mapE f xs with
      | error e => rw [hrest] at h; cases h
      | ok ys0 =>
        rw [hrest] at h
        cases h
        cases i with
        | zero => exact hfx
        | succ j =>
          exact ih hrest j (Nat.lt_of_succ_lt_succ h1) (Nat.lt_of_succ_lt_succ h2)

theorem mapE_ok_of_forall {f : α → Except ε β} {g : α → β} :
    ∀ {xs : List α}, (∀ a ∈ xs, f a = Except.ok (g a)) → mapE f xs = Except.ok (xs.map g) := by
  intro xs
  induction xs with
  | nil => intro _; rfl
  | cons x xs ih =>
    intro h
    have hx : f x = Except.ok (g x) := h x (List.mem_cons_self x xs)
    have hrest := ih (fun a ha => h a (List.mem_cons_of_mem x ha))
    simp [mapE, hx, hrest]

theorem findAppend {p : α → Bool} :
    ∀ (l1 l2 : List α), (l1 ++ l2).find? p =
      match l1.find? p with
      | some x => some x
      | none => l2.find? p := by
  intro l1 l2
  induction l1 with
  | nil => simp
  | cons a l1 ih =>
    cases hp : p a with
    | true => simp [List.find?_cons_of_pos _ hp]
    | false =>
      have hp2 : ¬ p a = true := by simp [hp]
      simp [List.find?_cons_of_neg _ hp2, ih]

theorem pairwise_context_ne {l : List Plv8Ctx}
    (hp : l.Pairwise (fun a b => a.context ≠ b.context)) :
    ∀ {a b : Plv8Ctx}, a ∈ l → b ∈ l → a ≠ b → a.context ≠ b.context := by
  induction hp with
  | nil =>
    intro a b ha
    cases ha
  | cons hhead _ ih =>
    intro a b ha hb hne
    cases ha with
    | head =>
      cases hb with
      | head => exact absurd rfl hne
      | tail _ hb0 => exact hhead b hb0
    | tail _ ha0 =>
      cases hb with
      | head => exact (hhead a ha0).symm
      | tail _ hb0 => exact ih ha0 hb0 hne

theorem binding_isolation (st : GlobalStore) (c1 c2 : Nat) (nm : String) (v : JSValue)
    (h : c1 ≠ c2) : getBinding (setBinding st c1 nm v) c2 nm = getBinding st c2 nm := by
  simp only [setBinding, getBinding]
  rw [if_neg (fun hc => h hc.1)]

theorem getGlobalContext_WF (sp : Option Bool) (s : CtxState) (u : Nat)
    (h : WFCtx s) : WFCtx (getGlobalContext sp s u).2 := by
  unfold getGlobalContext
  cases hf : findCtx s u with
  | some c => exact h
  | none =>
    have hbound : ∀ c ∈ s.vector ++ [(⟨s.nextCtx, u⟩ : Plv8Ctx)], c.context < s.nextCtx + 1 := by
      intro c hc
      rcases List.mem_append.mp hc with hin | hin
      · exact Nat.lt_succ_of_lt (h.1 c hin)
      · simp at hin
        subst hin
        exact Nat.lt_succ_self _
    have hpw : (s.vector ++ [(⟨s.nextCtx, u⟩ : Plv8Ctx)]).Pairwise
        (fun a b => a.context ≠ b.context) := by
      rw [List.pairwise_append]
      refine ⟨h.2, List.pairwise_singleton _ _, ?_⟩
      intro a ha b hb
      simp at hb
      subst hb
      exact Nat.ne_of_lt (h.1 a ha)
    cases sp with
    | none => exact ⟨hbound, hpw⟩
    | some b => cases b with
      | false => exact ⟨hbound, hpw⟩
      | true => exact ⟨hbound, hpw⟩

theorem map_single_ok_length {x : Except String Row} {rows : List Row}
    (h : x.map (fun r => [r]) = Except.ok rows) : rows.length = 1 := by
  cases x with
  | error e => simp [Except.map] at h
  | ok r =>
    simp [Except.map] at h
    simp [← h]

/-- C1: the cached compiled function is reused iff the entry's handle is
present and its stored xmin, tid and user id match the current catalog row
and session user; on any mismatch the handle is cleared and the function is
recompiled from the fresh catalog read, so a returned compiled function is
either the validated cached one or a fresh compile of the current source,
never a stale artifact. -/
theorem proc_cache_reuse (prev : ProcCacheEntry) (cat : CatalogRow) (u : Nat) (tg : Bool) :
    (uptodate prev cat u = true → getOrCompile (some prev) cat u tg = .ok prev) ∧
    (uptodate prev cat u = false → (plv8GetProcEntry (some prev) cat u).function = none) ∧
    (∀ e, getOrCompile (some prev) cat u tg = .ok e →
      (uptodate prev cat u = true ∧ e = prev) ∨
      (∃ f, e.function = some f ∧
        compileFunction (some cat.proname) cat.argnames cat.prosrc tg cat.retset = .ok f ∧
        e.fn_xmin = cat.xmin ∧ e.fn_tid = cat.tid ∧ e.user_id = u ∧
        e.prosrc = some cat.prosrc)) ∧
    (∀ e, getOrCompile none cat u tg = .ok e →
      ∃ f, e.function = some f ∧
        compileFunction (some cat.proname) cat.argnames cat.prosrc tg cat.retset = .ok f) := by
  have hmiss : ∀ e, getOrCompile none cat u tg = .ok e →
      ∃ f, e.function = some f ∧
        compileFunction (some cat.proname) cat.argnames cat.prosrc tg cat.retset = .ok f := by
    intro e he
    simp only [getOrCompile, plv8GetProcEntry, refreshEntry, Option.getD] at he
    cases hc : compileFunction (some cat.proname) cat.argnames cat.prosrc tg cat.retset with
    | error err => rw [hc] at he; cases he
    | ok f =>
      rw [hc] at he
      cases he
      exact ⟨f, rfl, rfl⟩
  have hstale : uptodate prev cat u = false →
      ∀ e, getOrCompile (some prev) cat u tg = .ok e →
        ∃ f, e.function = some f ∧
          compileFunction (some cat.proname) cat.argnames cat.prosrc tg cat.retset = .ok f ∧
          e.fn_xmin = cat.xmin ∧ e.fn_tid = cat.tid ∧ e.user_id = u ∧
          e.prosrc = some cat.prosrc := by
    intro hup e he
    simp only [getOrCompile, plv8GetProcEntry, hup, Bool.false_eq_true, if_false,
      refreshEntry, Option.getD] at he
    cases hc : compileFunction (some cat.proname) cat.argnames cat.prosrc tg cat.retset with
    | error err => rw [hc] at he; cases he
    | ok f =>
      rw [hc] at he
      cases he
      exact ⟨f, rfl, rfl, rfl, rfl, rfl, rfl⟩
  have hreuse : uptodate prev cat u = true → getOrCompile (some prev) cat u tg = .ok prev := by
    intro hup
    have hsome : prev.function.isSome = true := by
      have h0 := hup
      simp only [uptodate, Bool.and_eq_true] at h0
      exact h0.1.1.1
    obtain ⟨f0, hf0⟩ := Option.isSome_iff_exists.mp hsome
    simp [getOrCompile, plv8GetProcEntry, hup, hf0]
  refine ⟨hreuse, ?_, ?_, hmiss⟩
  · intro hup
    simp [plv8GetProcEntry, hup, refreshEntry]
  · intro e he
    cases hup : uptodate prev cat u with
    | true =>
      rw [hreuse hup] at he
      cases he
      exact Or.inl ⟨rfl, rfl⟩
    | false =>
      obtain ⟨f, h1, h2, h3⟩ := hstale hup e he
      exact Or.inr ⟨f, h1, h2, h3⟩

/-- C1 witness: a concrete up-to-date entry is reused unchanged. -/
theorem proc_cache_reuse_witness :
    uptodate ⟨some "code", "f", some "return 1", 1, (2, 3), 5, 1, false, 23, [23]⟩
        ⟨1, (2, 3), "f", "return 1", false, 23, [23], [some "x"]⟩ 5 = true ∧
    getOrCompile (some ⟨some "code", "f", some "return 1", 1, (2, 3), 5, 1, false, 23, [23]⟩)
        ⟨1, (2, 3), "f", "return 1", false, 23, [23], [some "x"]⟩ 5 false =
      .ok ⟨some "code", "f", some "return 1", 1, (2, 3), 5, 1, false, 23, [23]⟩ :=
  ⟨by decide,
   (proc_cache_reuse ⟨some "code", "f", some "return 1", 1, (2, 3), 5, 1, false, 23, [23]⟩
      ⟨1, (2, 3), "f", "return 1", false, 23, [23], [some "x"]⟩ 5 false).1 (by decide)⟩

/-- C2: the set-returning result marshalling emits zero rows for
`undefined`, one converted row per element in index order for an array,
and exactly one row for any other value. -/
theorem srf_row_semantics (sc : Bool) (cols : List Column) :
    srfEmit sc cols .undefined = .ok [] ∧
    (∀ xs rows, srfEmit sc cols (.array xs) = .ok rows →
      rows.length = xs.length ∧
      ∀ i (h1 : i < xs.length) (h2 : i < rows.length),
        converterToDatum sc cols (xs.get ⟨i, h1⟩) = .ok (rows.get ⟨i, h2⟩)) ∧
    (∀ v rows, isUndefined v = false → isArray v = false →
      srfEmit sc cols v = .ok rows → rows.length = 1) := by
  refine ⟨rfl, ?_, ?_⟩
  · intro xs rows h
    have h0 : mapE (converterToDatum sc cols) xs = .ok rows := h
    exact ⟨mapE_ok_length h0, fun i h1 h2 => mapE_ok_get h0 i h1 h2⟩
  · intro v rows hu ha h
    cases v with
    | undefined => simp [isUndefined] at hu
    | array xs => simp [isArray] at ha
    | null => exact map_single_ok_length h
    | bool b => exact map_single_ok_length h
    | num n => exact map_single_ok_length h
    | str s => exact map_single_ok_length h
    | object fs => exact map_single_ok_length h

/-- C2 witness: a one-element array emits exactly one row. -/
theorem srf_row_semantics_witness :
    srfEmit true [("a", ColType.int)] (.array [.num 3]) = .ok [[some (SQLValue.i 3)]] ∧
    [[some (SQLValue.i 3)]].length = [JSValue.num 3].length :=
  ⟨rfl, ((srf_row_semantics true [("a", ColType.int)]).2.1 [.num 3] [[some (.i 3)]] rfl).1⟩

/-- C3 counterexample: a row-level UPDATE trigger whose function returns
`null` does NOT have the update suppressed: the handler returns the
original new tuple (a non-NULL datum), so the original new row is applied. -/
theorem update_trigger_null_not_suppressed :
    callTrigger ⟨.upd, true, [some (.i 1)], [some (.i 2)]⟩ [("a", ColType.int)] .null =
      .ok (.tuple [some (.i 2)]) ∧
    callTrigger ⟨.upd, true, [some (.i 1)], [some (.i 2)]⟩ [("a", ColType.int)] .undefined =
      .ok (.tuple [some (.i 2)]) ∧
    TriggerResult.tuple [some (SQLValue.i 2)] ≠ TriggerResult.zero ∧
    (⟨.upd, true, [some (.i 1)], [some (.i 2)]⟩ : TriggerData).newtuple = [some (SQLValue.i 2)] :=
  ⟨rfl, rfl, by decide, rfl⟩

/-- C3 amended: for a row-level UPDATE trigger, `null`/`undefined` leaves
the handler returning the original new tuple (the update proceeds with the
unmodified new row); a returned row object that converts successfully is
returned as the tuple to apply. -/
theorem update_trigger_semantics (t : TriggerData) (cols : List Column)
    (hop : t.op = TgOp.upd) (hrow : t.forRow = true) :
    callTrigger t cols .null = .ok (.tuple t.newtuple) ∧
    callTrigger t cols .undefined = .ok (.tuple t.newtuple) ∧
    (∀ fields r, converterToDatum false cols (.object fields) = .ok r →
      callTrigger t cols (.object fields) = .ok (.tuple r)) := by
  refine ⟨?_, ?_, ?_⟩
  · simp [callTrigger, hop, hrow]
  · simp [callTrigger, hop, hrow]
  · intro fields r hc
    simp [callTrigger, hop, hrow, hc, Except.map]

/-- C3 amended witness: concrete UPDATE trigger returning a row object. -/
theorem update_trigger_semantics_witness :
    callTrigger ⟨.upd, true, [some (.i 1)], [some (.i 2)]⟩ [("a", ColType.int)] .undefined =
      .ok (.tuple [some (.i 2)]) :=
  (update_trigger_semantics ⟨.upd, true, [some (.i 1)], [some (.i 2)]⟩
    [("a", ColType.int)] rfl rfl).2.1

/-- C10: for row-level INSERT and DELETE triggers the scripting function's
return value is ignored; the handler always returns the original
`tg_trigtuple`. -/
theorem insert_delete_trigger_result (t : TriggerData) (cols : List Column) (v : JSValue)
    (hrow : t.forRow = true) (hop : t.op = TgOp.ins ∨ t.op = TgOp.del) :
    callTrigger t cols v = .ok (.tuple t.trigtuple) := by
  cases hop with
  | inl h => simp [callTrigger, h, hrow]
  | inr h => simp [callTrigger, h, hrow]

/-- C10 witness: an INSERT trigger returning a number still yields the
original trigger tuple. -/
theorem insert_delete_trigger_result_witness :
    callTrigger ⟨.ins, true, [some (.i 1)], []⟩ [("a", ColType.int)] (.num 9) =
      .ok (.tuple [some (.i 1)]) :=
  insert_delete_trigger_result ⟨.ins, true, [some (.i 1)], []⟩ [("a", ColType.int)]
    (.num 9) rfl (Or.inl rfl)

/-- C4 counterexample: the transaction-end callback disposes only the
receiver handle; the processed environment's context handle is NOT
released, so the claim that "receiver/context engine handles" are both
released is false at this input. -/
theorem xact_cb_context_retained :
    (plv8XactCb .commit [⟨some 1, some 2⟩]).2 = [⟨none, some 2⟩] ∧
    (⟨none, some 2⟩ : ExecEnv).context ≠ none :=
  ⟨rfl, by decide⟩

/-- C4 amended: at every transaction end event, commit and abort uniformly
(the event is ignored), every environment in the list has its receiver
handle disposed and cleared -- its context handle is left untouched -- and
the list head is reset to empty. -/
theorem xact_cb_release (ev : XactEvent) (envs : List ExecEnv) :
    (∀ ev2, plv8XactCb ev envs = plv8XactCb ev2 envs) ∧
    (plv8XactCb ev envs).1 = [] ∧
    (plv8XactCb ev envs).2.length = envs.length ∧
    (∀ e ∈ (plv8XactCb ev envs).2, e.recv = none) ∧
    (∀ e0 ∈ envs,
      ({ e0 with recv := none } : ExecEnv) ∈ (plv8XactCb ev envs).2) := by
  refine ⟨fun _ => rfl, rfl, by simp [plv8XactCb], ?_, ?_⟩
  · intro e he
    simp only [plv8XactCb, List.mem_map] at he
    obtain ⟨a, _, hfa⟩ := he
    by_cases hr : a.recv.isSome = true
    · rw [if_pos hr] at hfa
      rw [← hfa]
    · rw [if_neg hr] at hfa
      rw [← hfa]
      exact Option.not_isSome_iff_eq_none.mp hr
  · intro e0 he0
    simp only [plv8XactCb, List.mem_map]
    refine ⟨e0, he0, ?_⟩
    by_cases hr : e0.recv.isSome = true
    · rw [if_pos hr]
    · rw [if_neg hr]
      have hn : e0.recv = none := Option.not_isSome_iff_eq_none.mp hr
      cases e0
      simp at hn
      simp [hn]

/-- C4 amended witness: concrete abort event. -/
theorem xact_cb_release_witness :
    (plv8XactCb .abort [⟨some 1, some 2⟩]).1 = [] ∧
    (plv8XactCb .abort [⟨some 1, some 2⟩]).2.length =
      [(⟨some 1, some 2⟩ : ExecEnv)].length :=
  ⟨(xact_cb_release .abort [⟨some 1, some 2⟩]).2.1,
   (xact_cb_release .abort [⟨some 1, some 2⟩]).2.2.1⟩

/-- C7: whenever the engine call happens (SPI_connect succeeded), the
session trace is exactly connect, call, finish -- the session is opened
before the call and closed after it, and the close is in the trace even
when the overall result is an error (the failure is raised only after
SPI_finish). -/
theorem spi_bracketing (ck : Bool) (cr : Option Nat) (st : Int) :
    (ck = true → (doCall ck cr st).2 = [SpiEv.connect, SpiEv.call, SpiEv.finish]) ∧
    (SpiEv.call ∈ (doCall ck cr st).2 →
      (doCall ck cr st).2 = [SpiEv.connect, SpiEv.call, SpiEv.finish]) ∧
    (∀ e, (doCall ck cr st).1 = .error e → SpiEv.call ∈ (doCall ck cr st).2 →
      SpiEv.finish ∈ (doCall ck cr st).2) := by
  cases ck with
  | false =>
    refine ⟨?_, ?_, ?_⟩
    · intro h
      cases h
    · intro h
      simp [doCall] at h
    · intro e _ h
      simp [doCall] at h
  | true =>
    have htr : (doCall true cr st).2 = [SpiEv.connect, SpiEv.call, SpiEv.finish] := by
      cases cr with
      | none => rfl
      | some v =>
        by_cases h : st < 0 <;> simp [doCall, h]
    exact ⟨fun _ => htr, fun _ => htr, fun e _ _ => by rw [htr]; simp⟩

/-- C7 witness: a failing engine call still has finish in its trace. -/
theorem spi_bracketing_witness :
    (doCall true none 0).2 = [SpiEv.connect, SpiEv.call, SpiEv.finish] :=
  (spi_bracketing true none 0).1 rfl

/-- C8: converting an engine object to a row maps every column whose
property is missing (a missing property reads as `undefined`), undefined
or null to SQL NULL rather than an error, and converts every other column
through its per-column type descriptor. -/
theorem row_null_policy (cols : List Column) (fields : List (String × JSValue)) :
    (∀ nm, fields.find? (fun p => p.1 == nm) = none → objGet fields nm = .undefined) ∧
    (∀ row, converterToDatum false cols (.object fields) = .ok row →
      ∀ i (h1 : i < cols.length) (h2 : i < row.length),
        (isNullish (objGet fields (cols.get ⟨i, h1⟩).1) = true →
          row.get ⟨i, h2⟩ = none) ∧
        (isNullish (objGet fields (cols.get ⟨i, h1⟩).1) = false →
          ∃ d, scalarToDatum (objGet fields (cols.get ⟨i, h1⟩).1) (cols.get ⟨i, h1⟩).2 =
              .ok d ∧ row.get ⟨i, h2⟩ = some d)) ∧
    ((∀ c ∈ cols, isNullish (objGet fields c.1) = true) →
      converterToDatum false cols (.object fields) = .ok (cols.map (fun _ => none))) := by
  refine ⟨?_, ?_, ?_⟩
  · intro nm h
    simp [objGet, h]
  · intro row hrow i h1 h2
    have hr : rowOfObj cols fields = .ok row := hrow
    have hcol := mapE_ok_get hr i h1 h2
    constructor
    · intro hn
      simp only [hn, if_true] at hcol
      simp only [Except.ok.injEq] at hcol
      exact hcol.symm
    · intro hn
      simp only [hn, Bool.false_eq_true, if_false] at hcol
      cases hs : scalarToDatum (objGet fields (cols.get ⟨i, h1⟩).1) (cols.get ⟨i, h1⟩).2 with
      | error e =>
        rw [hs] at hcol
        simp [Except.map] at hcol
      | ok d =>
        rw [hs] at hcol
        simp only [Except.map, Except.ok.injEq] at hcol
        exact ⟨d, rfl, hcol.symm⟩
  · intro hall
    have : mapE (fun col =>
        let attr := objGet fields col.1
        if isNullish attr then Except.ok none
        else (scalarToDatum attr col.2).map some) cols =
        Except.ok (cols.map (fun _ => (none : Option SQLValue))) := by
      apply mapE_ok_of_forall
      intro a ha
      simp [hall a ha]
    exact this

/-- C8 witness: an object with no properties converts to an all-NULL row. -/
theorem row_null_policy_witness :
    converterToDatum false [("a", ColType.int)] (.object []) = .ok [none] :=
  (row_null_policy [("a", ColType.int)] []).2.2 (by decide)

/-- C9: a nested set-returning invocation entered while an outer converter
is registered restores the outer converter/tuplestore pair exactly, no
matter what the nested execution does to the fields. -/
theorem srf_nested_restore (s : Plv8Obj) (own : Nat × Nat) (body : Plv8Obj → Plv8Obj)
    (h : s.conv.isSome = true) : srInstallRestore s own body = s := by
  cases s with
  | mk c t =>
    cases c with
    | none => simp at h
    | some c0 => simp [srInstallRestore]

/-- C9 witness: a nested call that scrambles the fields still restores the
outer binding. -/
theorem srf_nested_restore_witness :
    srInstallRestore ⟨some 5, some 6⟩ (1, 2) (fun _ => ⟨none, none⟩) = ⟨some 5, some 6⟩ :=
  srf_nested_restore ⟨some 5, some 6⟩ (1, 2) (fun _ => ⟨none, none⟩) rfl

theorem getGlobalContext_hit {sp : Option Bool} {s : CtxState} {u : Nat} {c : Plv8Ctx}
    {c1 : Nat} {s1 : CtxState} (hf : findCtx s u = some c)
    (h : getGlobalContext sp s u = (.ok c1, s1)) : c1 = c.context ∧ s1 = s := by
  unfold getGlobalContext at h
  rw [hf] at h
  simp only [Prod.mk.injEq, Except.ok.injEq] at h
  exact ⟨h.1.symm, h.2.symm⟩

theorem getGlobalContext_miss_ok {sp : Option Bool} {s : CtxState} {u : Nat}
    {c1 : Nat} {s1 : CtxState} (hf : findCtx s u = none)
    (h : getGlobalContext sp s u = (.ok c1, s1)) :
    c1 = s.nextCtx ∧ s1 = ⟨s.vector ++ [⟨s.nextCtx, u⟩], s.nextCtx + 1⟩ := by
  unfold getGlobalContext at h
  rw [hf] at h
  cases sp with
  | none =>
    simp only [Prod.mk.injEq, Except.ok.injEq] at h
    exact ⟨h.1.symm, h.2.symm⟩
  | some b =>
    cases b with
    | false => simp at h
    | true =>
      simp only [Prod.mk.injEq, Except.ok.injEq] at h
      exact ⟨h.1.symm, h.2.symm⟩

theorem findCtx_some {s : CtxState} {u : Nat} {c : Plv8Ctx}
    (h : findCtx s u = some c) : c ∈ s.vector ∧ c.user_id = u := by
  unfold findCtx at h
  refine ⟨List.mem_of_find?_eq_some h, ?_⟩
  have := List.find?_some h
  simpa using this

/-- C5 counterexample: when the configured start-up function fails, the
error propagates, but the principal's context does NOT remain absent: it
was registered before the start-up function ran and stays in the
registry. -/
theorem start_proc_failure_registered :
    (getGlobalContext (some false) ⟨[], 0⟩ 7).1 = .error () ∧
    findCtx (getGlobalContext (some false) ⟨[], 0⟩ 7).2 7 = some ⟨0, 7⟩ :=
  ⟨rfl, rfl⟩

/-- C5 amended: a failing start-up function propagates an error, but the
principal's context was already pushed into the registry and remains
there; the next request by that principal finds and reuses that context
without re-running the start-up function (it succeeds even though the
start-up function would still fail, and leaves the registry unchanged). -/
theorem start_proc_failure_retry (s : CtxState) (u : Nat)
    (hfresh : findCtx s u = none) :
    (getGlobalContext (some false) s u).1 = .error () ∧
    findCtx (getGlobalContext (some false) s u).2 u = some ⟨s.nextCtx, u⟩ ∧
    getGlobalContext (some false) (getGlobalContext (some false) s u).2 u =
      (.ok s.nextCtx, (getGlobalContext (some false) s u).2) := by
  have hstate : (getGlobalContext (some false) s u).2 =
      ⟨s.vector ++ [⟨s.nextCtx, u⟩], s.nextCtx + 1⟩ := by
    simp [getGlobalContext, hfresh]
  have hfind : findCtx (getGlobalContext (some false) s u).2 u = some ⟨s.nextCtx, u⟩ := by
    rw [hstate]
    unfold findCtx
    rw [findAppend]
    have hfresh2 : List.find? (fun c : Plv8Ctx => c.user_id == u) s.vector = none := hfresh
    simp [hfresh2]
  have hthird : ∀ s3, findCtx s3 u = some ⟨s.nextCtx, u⟩ →
      getGlobalContext (some false) s3 u = (.ok s.nextCtx, s3) := by
    intro s3 hf
    unfold getGlobalContext
    rw [hf]
  exact ⟨by simp [getGlobalContext, hfresh], hfind, hthird _ hfind⟩

/-- C5 amended witness: concrete fresh principal with failing start-up. -/
theorem start_proc_failure_retry_witness :
    findCtx ⟨[], 0⟩ 7 = none ∧
    (getGlobalContext (some false) ⟨[], 0⟩ 7).1 = .error () :=
  ⟨rfl, (start_proc_failure_retry ⟨[], 0⟩ 7 rfl).1⟩

/-- C6: in a well-formed registry, two distinct principals obtain distinct
engine global contexts, and a global binding written in the first
principal's context is not observable from the second's. -/
theorem principal_isolation (sp : Option Bool) (s : CtxState) (u1 u2 c1 c2 : Nat)
    (s1 s2 : CtxState) (st : GlobalStore) (nm : String) (v : JSValue)
    (hWF : WFCtx s) (hne : u1 ≠ u2)
    (h1 : getGlobalContext sp s u1 = (.ok c1, s1))
    (h2 : getGlobalContext sp s1 u2 = (.ok c2, s2)) :
    c1 ≠ c2 ∧ getBinding (setBinding st c1 nm v) c2 nm = getBinding st c2 nm := by
  have hcc : c1 ≠ c2 := by
    cases hf1 : findCtx s u1 with
    | some c =>
      obtain ⟨hc1, hs1⟩ := getGlobalContext_hit hf1 h1
      obtain ⟨hcmem, hcuser⟩ := findCtx_some hf1
      rw [hs1] at h2
      cases hf2 : findCtx s u2 with
      | some d =>
        obtain ⟨hc2, _⟩ := getGlobalContext_hit hf2 h2
        obtain ⟨hdmem, hduser⟩ := findCtx_some hf2
        have hcd : c ≠ d := by
          intro hEq
          exact hne (by rw [← hcuser, ← hduser, hEq])
        rw [hc1, hc2]
        exact pairwise_context_ne hWF.2 hcmem hdmem hcd
      | none =>
        obtain ⟨hc2, _⟩ := getGlobalContext_miss_ok hf2 h2
        rw [hc1, hc2]
        exact Nat.ne_of_lt (hWF.1 c hcmem)
    | none =>
      obtain ⟨hc1, hs1⟩ := getGlobalContext_miss_ok hf1 h1
      cases hf2 : findCtx s u2 with
      | some d =>
        have hfs1 : findCtx s1 u2 = some d := by
          rw [hs1]
          unfold findCtx
          rw [findAppend]
          have h0 : List.find? (fun c : Plv8Ctx => c.user_id == u2) s.vector = some d := hf2
          rw [h0]
        obtain ⟨hc2, _⟩ := getGlobalContext_hit hfs1 h2
        obtain ⟨hdmem, _⟩ := findCtx_some hf2
        rw [hc1, hc2]
        exact (Nat.ne_of_lt (hWF.1 d hdmem)).symm
      | none =>
        have hfs1 : findCtx s1 u2 = none := by
          rw [hs1]
          unfold findCtx
          rw [findAppend]
          have h0 : List.find? (fun c : Plv8Ctx => c.user_id == u2) s.vector = none := hf2
          rw [h0]
          show List.find? (fun c : Plv8Ctx => c.user_id == u2) [⟨s.nextCtx, u1⟩] = none
          rw [List.find?_eq_none]
          intro x hx
          simp at hx
          subst hx
          simp [hne]
        obtain ⟨hc2, hs2⟩ := getGlobalContext_miss_ok hfs1 h2
        have hc2' : c2 = s.nextCtx + 1 := by
          rw [hc2, hs1]
        rw [hc1, hc2']
        exact Nat.ne_of_lt (Nat.lt_succ_self _)
  exact ⟨hcc, binding_isolation st c1 c2 nm v hcc⟩

/-- C6 witness: principals 1 and 2 on an empty registry get contexts 0 and
1, and a binding written under context 0 is invisible from context 1. -/
theorem principal_isolation_witness :
    (0 : Nat) ≠ 1 ∧
    getBinding (setBinding [] 0 "x" .null) 1 "x" = getBinding [] 1 "x" :=
  principal_isolation none ⟨[], 0⟩ 1 2 0 1 ⟨[⟨0, 1⟩], 1⟩ ⟨[⟨0, 1⟩, ⟨1, 2⟩], 2⟩ [] "x" .null
    (by
      refine ⟨?_, ?_⟩
      · intro c hc
        cases hc
      · exact List.Pairwise.nil)
    (by decide) rfl rfl

end Plv8
